import Mathlib

/-!
Verification development for the balance reconciliation engine of the
mintclonereplit personal-finance application.

The embedding follows `src/server/storage.ts` (the `MemStorage` and
`DatabaseStorage` classes), `src/server/routes.ts` (the
`POST /api/transactions` handler) and `src/shared/schema.ts`
(`insertTransactionSchema`).  Monetary amounts, stored as
`doublePrecision` columns and manipulated with ordinary JavaScript
arithmetic in the source, are modelled as exact rationals; entity
identifiers are naturals; nullable foreign keys are `Option`.
Record fields that never influence the reconciliation logic
(merchant, date, description, notes, recurring flag) are omitted from
the stored entities; the request-validation model tracks the presence
of the required ones.
-/

namespace MintClone

/-- A row of the `accounts` table: `id`, `user_id` and the denormalized
`current_balance` column maintained by the reconciliation engine. -/
structure Account where
  id : Nat
  userId : Nat
  currentBalance : ℚ
deriving DecidableEq

/-- A row of the `categories` table; `type` is the free-form text column
that the engine compares against the string literal `"income"`. -/
structure Category where
  id : Nat
  type : String
deriving DecidableEq

/-- A row of the `transactions` table restricted to the fields the
reconciliation logic reads: key, owner, owning account, nullable
category and the positive-magnitude amount. -/
structure Txn where
  id : Nat
  userId : Nat
  accountId : Nat
  categoryId : Option Nat
  amount : ℚ
deriving DecidableEq

/-- The payload of `createTransaction` after schema validation
(`InsertTransaction` in the source, minus logic-irrelevant fields). -/
structure InsertTxn where
  userId : Nat
  accountId : Nat
  categoryId : Option Nat
  amount : ℚ
deriving DecidableEq

/-- A `Partial<Transaction>` patch as consumed by `updateTransaction`:
`none` means the field is absent from the patch.  A present
`categoryId` may itself be `none`, mirroring an explicit null. -/
structure TxnPatch where
  amount : Option ℚ := none
  categoryId : Option (Option Nat) := none
  accountId : Option Nat := none
deriving DecidableEq

/-- The in-memory store: the maps of `MemStorage` (equivalently the
tables of `DatabaseStorage`) rendered as association lists in insertion
order, plus the id counter used for new transactions. -/
structure State where
  accounts : List Account
  categories : List Category
  transactions : List Txn
  nextTxnId : Nat
deriving DecidableEq

/-- `getCategory` on a nullable foreign key: the source guards with
`transaction.categoryId ? getCategory(...) : undefined`. -/
def getCategoryC (cats : List Category) : Option Nat → Option Category
  | none => none
  | some cid => cats.find? (fun c => c.id == cid)

/-- `category?.type === 'income'`: an unresolved or null category is
not income. -/
def isIncomeC : Option Category → Bool
  | some c => c.type == "income"
  | none => false

/-- `isIncome ? amount : -amount` — the signed contribution an amount
makes to a balance, given the category id it is posted under. -/
def deltaOf (cats : List Category) (catId : Option Nat) (amount : ℚ) : ℚ :=
  if isIncomeC (getCategoryC cats catId) then amount else -amount

/-- The signed delta of a stored transaction (spec: `signedDelta(t)`). -/
def signedDeltaC (cats : List Category) (t : Txn) : ℚ :=
  deltaOf cats t.categoryId t.amount

/-- `updateAccount(id, { currentBalance })`: rewrite the balance of the
account(s) carrying the given id, leaving everything else alone. -/
def updateAccountBalance (accs : List Account) (aid : Nat) (b : ℚ) : List Account :=
  accs.map (fun a => if a.id == aid then { a with currentBalance := b } else a)

/-- `getAccount(id)`. -/
def getAccountS (st : State) (aid : Nat) : Option Account :=
  st.accounts.find? (fun a => a.id == aid)

/-- `getTransaction(id)`. -/
def getTransactionS (st : State) (i : Nat) : Option Txn :=
  st.transactions.find? (fun t => t.id == i)

/-- The transaction record built by `createTransaction` from its input
and the freshly drawn id (`{ ...transaction, id }`). -/
def newTxnOf (ins : InsertTxn) (i : Nat) : Txn :=
  { id := i, userId := ins.userId, accountId := ins.accountId
  , categoryId := ins.categoryId, amount := ins.amount }

/-- `createTransaction` (storage.ts): insert the record, then, when the
owning account exists, resolve the category and post
`currentBalance + (isIncome ? amount : -amount)` back to the account. -/
def createTransaction (st : State) (ins : InsertTxn) : Txn × State :=
  let newTxn := newTxnOf ins st.nextTxnId
  let st1 : State :=
    { st with transactions := st.transactions ++ [newTxn]
            , nextTxnId := st.nextTxnId + 1 }
  match st.accounts.find? (fun a => a.id == ins.accountId) with
  | some account =>
      let updatedBalance :=
        account.currentBalance + deltaOf st.categories ins.categoryId ins.amount
      (newTxn,
        { st1 with accounts := updateAccountBalance st1.accounts account.id updatedBalance })
  | none => (newTxn, st1)

/-- `transactionUpdate.amount !== undefined && transactionUpdate.amount
!== transaction.amount`. -/
def amountChanged (p : TxnPatch) (t : Txn) : Bool :=
  match p.amount with
  | some a => decide (a ≠ t.amount)
  | none => false

/-- `transactionUpdate.categoryId !== undefined &&
transactionUpdate.categoryId !== transaction.categoryId`. -/
def categoryChanged (p : TxnPatch) (t : Txn) : Bool :=
  match p.categoryId with
  | some c => decide (c ≠ t.categoryId)
  | none => false

/-- `{ ...transaction, ...transactionUpdate }`. -/
def applyPatch (t : Txn) (p : TxnPatch) : Txn :=
  { t with amount := p.amount.getD t.amount
         , categoryId := p.categoryId.getD t.categoryId
         , accountId := p.accountId.getD t.accountId }

/-- `updateTransaction` (storage.ts): when the patch changes the amount
or the category and the owning account exists, revert the old signed
delta and apply the new one in a single balance write; then overwrite
the stored record with the patched one.  A missing id is a total no-op
returning `undefined`. -/
def updateTransaction (st : State) (i : Nat) (p : TxnPatch) : Option Txn × State :=
  match st.transactions.find? (fun t => t.id == i) with
  | none => (none, st)
  | some t =>
    let st1 : State :=
      if amountChanged p t || categoryChanged p t then
        match st.accounts.find? (fun a => a.id == t.accountId) with
        | some account =>
            let reverted :=
              account.currentBalance - signedDeltaC st.categories t
            let newCategoryId := p.categoryId.getD t.categoryId
            let amount := p.amount.getD t.amount
            let updatedBalance :=
              reverted + deltaOf st.categories newCategoryId amount
            { st with accounts := updateAccountBalance st.accounts account.id updatedBalance }
        | none => st
      else st
    (some (applyPatch t p),
      { st1 with transactions :=
          st1.transactions.map (fun u => if u.id == i then applyPatch t p else u) })

/-- `deleteTransaction` (storage.ts): a missing id returns `false` and
changes nothing; otherwise subtract the transaction's signed delta from
the owning account (when it exists) and remove the record. -/
def deleteTransaction (st : State) (i : Nat) : Bool × State :=
  match st.transactions.find? (fun t => t.id == i) with
  | none => (false, st)
  | some t =>
    let st1 : State :=
      match st.accounts.find? (fun a => a.id == t.accountId) with
      | some account =>
          let updatedBalance := account.currentBalance - signedDeltaC st.categories t
          { st with accounts := updateAccountBalance st.accounts account.id updatedBalance }
      | none => st
    (true, { st1 with transactions := st1.transactions.filter (fun u => u.id != i) })

namespace MemStorage

/-- `MemStorage.deleteAccount`: `this.accounts.delete(id)` — the account
record alone is removed; transactions are untouched. -/
def deleteAccount (st : State) (aid : Nat) : Bool × State :=
  (st.accounts.any (fun a => a.id == aid),
    { st with accounts := st.accounts.filter (fun a => a.id != aid) })

end MemStorage

namespace DatabaseStorage

/-- `DatabaseStorage.deleteAccount`: first delete every transaction
whose `accountId` matches, then delete the account, returning `true`. -/
def deleteAccount (st : State) (aid : Nat) : Bool × State :=
  (true,
    { st with transactions := st.transactions.filter (fun t => t.accountId != aid)
            , accounts := st.accounts.filter (fun a => a.id != aid) })

end DatabaseStorage

/-- One engine operation on the transaction ledger. -/
inductive Op where
  | create (ins : InsertTxn)
  | update (i : Nat) (p : TxnPatch)
  | delete (i : Nat)
deriving DecidableEq

/-- Run one operation, discarding the returned value. -/
def applyOp (st : State) : Op → State
  | .create ins => (createTransaction st ins).2
  | .update i p => (updateTransaction st i p).2
  | .delete i => (deleteTransaction st i).2

/-- Run a sequence of operations left to right. -/
def applyOps (st : State) (ops : List Op) : State :=
  ops.foldl applyOp st

/-- Sum of signed deltas of the transactions posted to one account
(spec: `Σ signedDelta(t)` over non-deleted `t` with matching account). -/
def accSum (cats : List Category) (txns : List Txn) (aid : Nat) : ℚ :=
  ((txns.filter (fun t => t.accountId == aid)).map (signedDeltaC cats)).sum

/-- The fold invariant: every stored balance equals the account's
opening balance plus the signed sum over its transactions. -/
def Inv (opening : Nat → ℚ) (st : State) : Prop :=
  ∀ a ∈ st.accounts, a.currentBalance = opening a.id + accSum st.categories st.transactions a.id

/-- Store well-formedness maintained by `MemStorage`'s maps and id
counter: distinct account ids, distinct transaction ids, and every
transaction id below the next fresh id. -/
def WF (st : State) : Prop :=
  (st.accounts.map Account.id).Nodup ∧
  (st.transactions.map Txn.id).Nodup ∧
  ∀ t ∈ st.transactions, t.id < st.nextTxnId

instance (st : State) : Decidable (WF st) := by
  unfold WF; infer_instance

/-- An operation that never rewrites a transaction's `accountId`. -/
def noReassign : Op → Prop
  | .update _ p => p.accountId = none
  | _ => True

instance : DecidablePred noReassign := fun op => by
  cases op <;> simp only [noReassign] <;> infer_instance

/-- The raw body of a `POST /api/transactions` request, each
schema-required field possibly missing; `categoryId` may additionally
be an explicit null. -/
structure RawTxnBody where
  accountId : Option Nat
  categoryId : Option (Option Nat) := none
  date : Option Nat
  merchant : Option String
  amount : Option ℚ
deriving DecidableEq

/-- `insertTransactionSchema.parse` on the body with the session user
id injected: every `notNull` column without a default must be present;
the amount is any number (the schema carries no sign refinement);
a missing or null `categoryId` is stored as null. -/
def parseInsertTransaction (uid : Nat) (b : RawTxnBody) : Option InsertTxn :=
  match b.accountId, b.date, b.merchant, b.amount with
  | some aid, some _, some _, some amt =>
      some { userId := uid, accountId := aid
           , categoryId := b.categoryId.getD none, amount := amt }
  | _, _, _, _ => none

/-- Outcome of the `POST /api/transactions` handler. -/
inductive CreateTxnResult where
  | validationError
  | forbidden
  | created (t : Txn)
deriving DecidableEq

/-- The `POST /api/transactions` handler (routes.ts) for an
authenticated user: parse the body (Zod failure → 400 before any
write), check the target account exists and is owned by the requester
(otherwise 403 before any write), then call `createTransaction`. -/
def postTransaction (st : State) (uid : Nat) (b : RawTxnBody) : CreateTxnResult × State :=
  match parseInsertTransaction uid b with
  | none => (.validationError, st)
  | some data =>
    match st.accounts.find? (fun a => a.id == data.accountId) with
    | some account =>
        if account.userId == uid then
          let r := createTransaction st data
          (.created r.1, r.2)
        else (.forbidden, st)
    | none => (.forbidden, st)


/-! ### Helper lemmas about the store primitives -/

theorem map_eq_self_of {α : Type} (l : List α) (f : α → α)
    (h : ∀ a ∈ l, f a = a) : l.map f = l := by
  induction l with
  | nil => rfl
  | cons a l ih =>
    rw [List.map_cons, h a (List.mem_cons_self a l),
      ih (fun x hx => h x (List.mem_cons_of_mem a hx))]

theorem find?_updateAccountBalance (l : List Account) (aid : Nat) (b : ℚ) :
    (updateAccountBalance l aid b).find? (fun a => a.id == aid)
      = (l.find? (fun a => a.id == aid)).map (fun a => { a with currentBalance := b }) := by
  induction l with
  | nil => rfl
  | cons a l ih =>
    simp only [updateAccountBalance, List.map_cons] at ih ⊢
    by_cases h : a.id = aid
    · rw [if_pos (by simpa using h : ((a.id == aid) = true))]
      rw [List.find?_cons_of_pos _ (by simpa using h),
        List.find?_cons_of_pos _ (by simpa using h)]
      rfl
    · rw [if_neg (by simpa using h : ¬((a.id == aid) = true))]
      rw [List.find?_cons_of_neg _ (by simpa using h),
        List.find?_cons_of_neg _ (by simpa using h)]
      exact ih

theorem updateAccountBalance_twice (l : List Account) (aid : Nat) (b1 b2 : ℚ) :
    updateAccountBalance (updateAccountBalance l aid b1) aid b2
      = updateAccountBalance l aid b2 := by
  unfold updateAccountBalance
  rw [List.map_map]
  apply List.map_congr_left
  intro a _
  by_cases h : a.id = aid <;> simp [h]

theorem updateAccountBalance_eq_self (l : List Account) (aid : Nat) (b : ℚ)
    (h : ∀ a ∈ l, a.id = aid → a.currentBalance = b) :
    updateAccountBalance l aid b = l := by
  apply map_eq_self_of
  intro a ha
  by_cases hid : a.id = aid
  · rw [if_pos (by simpa using hid : ((a.id == aid) = true)), ← h a ha hid]
  · rw [if_neg (by simpa using hid : ¬((a.id == aid) = true))]

theorem map_id_updateAccountBalance (l : List Account) (aid : Nat) (b : ℚ) :
    (updateAccountBalance l aid b).map Account.id = l.map Account.id := by
  unfold updateAccountBalance
  rw [List.map_map]
  apply List.map_congr_left
  intro a _
  by_cases h : a.id = aid <;> simp [h]

theorem accSum_cons (cats : List Category) (u : Txn) (txns : List Txn) (aid : Nat) :
    accSum cats (u :: txns) aid
      = (if u.accountId == aid then signedDeltaC cats u else 0) + accSum cats txns aid := by
  unfold accSum
  rw [List.filter_cons]
  by_cases h : u.accountId = aid <;> simp [h]

theorem accSum_append_single (cats : List Category) (txns : List Txn) (t : Txn) (aid : Nat) :
    accSum cats (txns ++ [t]) aid
      = accSum cats txns aid + (if t.accountId == aid then signedDeltaC cats t else 0) := by
  unfold accSum
  rw [List.filter_append, List.map_append, List.sum_append]
  congr 1
  by_cases h : t.accountId = aid <;> simp [h]

theorem accSum_remove (cats : List Category) (txns : List Txn) (t : Txn) (aid : Nat)
    (hnd : (txns.map Txn.id).Nodup) (ht : t ∈ txns) :
    accSum cats txns aid
      = accSum cats (txns.filter (fun u => u.id != t.id)) aid
        + (if t.accountId == aid then signedDeltaC cats t else 0) := by
  induction txns with
  | nil => cases ht
  | cons u rest ih =>
    simp only [List.map_cons, List.nodup_cons] at hnd
    have hrestid : ∀ x ∈ rest, x.id ≠ u.id := by
      intro x hx he
      exact hnd.1 (he ▸ List.mem_map_of_mem Txn.id hx)
    by_cases h : u.id = t.id
    · have hut : t = u := by
        rcases List.mem_cons.mp ht with rfl | hm
        · rfl
        · exact absurd (h.symm) (hrestid t hm)
      subst hut
      rw [List.filter_cons]
      simp only [bne_self_eq_false, Bool.false_eq_true, if_false]
      have hrest : rest.filter (fun u => u.id != t.id) = rest := by
        apply List.filter_eq_self.mpr
        intro x hx
        simpa using hrestid x hx
      rw [hrest, accSum_cons]
      ring
    · have hmem : t ∈ rest := by
        rcases List.mem_cons.mp ht with rfl | hm
        · exact absurd rfl h
        · exact hm
      rw [List.filter_cons]
      have hcond : (u.id != t.id) = true := by simpa using h
      rw [hcond]
      simp only [if_true]
      rw [accSum_cons, accSum_cons, ih hnd.2 hmem]
      ring

theorem accSum_replace (cats : List Category) (txns : List Txn) (t t2 : Txn) (aid : Nat)
    (hnd : (txns.map Txn.id).Nodup) (ht : t ∈ txns) :
    accSum cats (txns.map (fun u => if u.id == t.id then t2 else u)) aid
      = accSum cats txns aid
        - (if t.accountId == aid then signedDeltaC cats t else 0)
        + (if t2.accountId == aid then signedDeltaC cats t2 else 0) := by
  induction txns with
  | nil => cases ht
  | cons u rest ih =>
    simp only [List.map_cons, List.nodup_cons] at hnd
    have hrestid : ∀ x ∈ rest, x.id ≠ u.id := by
      intro x hx he
      exact hnd.1 (he ▸ List.mem_map_of_mem Txn.id hx)
    by_cases h : u.id = t.id
    · have hut : t = u := by
        rcases List.mem_cons.mp ht with rfl | hm
        · rfl
        · exact absurd (h.symm) (hrestid t hm)
      subst hut
      rw [List.map_cons]
      rw [if_pos (by simp : ((t.id == t.id) = true))]
      have hrest : rest.map (fun u => if u.id == t.id then t2 else u) = rest := by
        apply map_eq_self_of
        intro x hx
        rw [if_neg]
        simp only [beq_iff_eq]
        exact hrestid x hx
      rw [hrest, accSum_cons, accSum_cons]
      ring
    · have hmem : t ∈ rest := by
        rcases List.mem_cons.mp ht with rfl | hm
        · exact absurd rfl h
        · exact hm
      rw [List.map_cons]
      rw [if_neg (by simpa using h : ¬((u.id == t.id) = true))]
      rw [accSum_cons, accSum_cons, ih hnd.2 hmem]
      ring

/-! ### Patch and uniqueness helpers -/

theorem eq_found_account (l : List Account) (aid : Nat) (acc a : Account)
    (hnd : (l.map Account.id).Nodup)
    (hfind : l.find? (fun x => x.id == aid) = some acc)
    (ha : a ∈ l) (hid : a.id = aid) : a = acc := by
  have hacc : acc ∈ l := List.mem_of_find?_eq_some hfind
  have hacc_id : acc.id = aid := by simpa using List.find?_some hfind
  exact List.inj_on_of_nodup_map hnd ha hacc (by rw [hid, hacc_id])

theorem amountChanged_false {p : TxnPatch} {t : Txn}
    (h : amountChanged p t = false) : p.amount.getD t.amount = t.amount := by
  unfold amountChanged at h
  cases hp : p.amount with
  | none => rfl
  | some a =>
    rw [hp] at h
    simp only [decide_eq_false_iff_not, not_not] at h
    simpa using h

theorem categoryChanged_false {p : TxnPatch} {t : Txn}
    (h : categoryChanged p t = false) : p.categoryId.getD t.categoryId = t.categoryId := by
  unfold categoryChanged at h
  cases hp : p.categoryId with
  | none => rfl
  | some c =>
    rw [hp] at h
    simp only [decide_eq_false_iff_not, not_not] at h
    simpa using h

theorem applyPatch_id (t : Txn) (p : TxnPatch) : (applyPatch t p).id = t.id := rfl

/-! ### The fold invariant is preserved by each engine operation -/

theorem createTransaction_inv (opening : Nat → ℚ) (st : State) (ins : InsertTxn)
    (hnd : (st.accounts.map Account.id).Nodup) (hinv : Inv opening st) :
    Inv opening (createTransaction st ins).2 := by
  cases hfind : st.accounts.find? (fun a => a.id == ins.accountId) with
  | none =>
    simp only [createTransaction, hfind]
    intro a ha
    rw [accSum_append_single]
    have hne : ¬(ins.accountId = a.id) := by
      intro he
      have := List.find?_eq_none.mp hfind a ha
      simp [he] at this
    simp only [newTxnOf, beq_iff_eq, hne, if_false]
    rw [add_zero]
    exact hinv a ha
  | some acc =>
    simp only [createTransaction, hfind]
    intro a2 ha2
    simp only [updateAccountBalance, List.mem_map] at ha2
    obtain ⟨a, ha, rfl⟩ := ha2
    have hacc_id : acc.id = ins.accountId := by simpa using List.find?_some hfind
    by_cases h : a.id = acc.id
    · have haacc : a = acc := eq_found_account _ _ _ _ hnd hfind ha (h.trans hacc_id)
      subst haacc
      rw [if_pos (by simpa using h)]
      rw [accSum_append_single]
      simp only [newTxnOf]
      rw [if_pos (by simpa using hacc_id.symm : ((ins.accountId == a.id) = true))]
      have hbase := hinv a ha
      simp only [signedDeltaC, newTxnOf]
      rw [hbase]
      ring
    · rw [if_neg (by simpa using h)]
      rw [accSum_append_single]
      have hne : ¬(ins.accountId = a.id) := fun he => h (by rw [← hacc_id] at he; exact he.symm)
      simp only [newTxnOf, beq_iff_eq, hne, if_false]
      rw [add_zero]
      exact hinv a ha

theorem deleteTransaction_inv (opening : Nat → ℚ) (st : State) (i : Nat)
    (hndA : (st.accounts.map Account.id).Nodup)
    (hndT : (st.transactions.map Txn.id).Nodup)
    (hinv : Inv opening st) :
    Inv opening (deleteTransaction st i).2 := by
  cases hfindT : st.transactions.find? (fun t => t.id == i) with
  | none => simpa only [deleteTransaction, hfindT] using hinv
  | some t =>
    have ht_mem : t ∈ st.transactions := List.mem_of_find?_eq_some hfindT
    have ht_id : t.id = i := by simpa using List.find?_some hfindT
    subst ht_id
    have hsum := fun aid => accSum_remove st.categories st.transactions t aid hndT ht_mem
    cases hfindA : st.accounts.find? (fun a => a.id == t.accountId) with
    | none =>
      simp only [deleteTransaction, hfindT, hfindA]
      intro a ha
      have hne : ¬(t.accountId = a.id) := by
        intro he
        have := List.find?_eq_none.mp hfindA a ha
        simp [he] at this
      have hbase := hinv a ha
      rw [hsum a.id] at hbase
      simp only [beq_iff_eq, hne, if_false] at hbase
      rw [add_zero] at hbase
      exact hbase
    | some acc =>
      simp only [deleteTransaction, hfindT, hfindA]
      intro a2 ha2
      simp only [updateAccountBalance, List.mem_map] at ha2
      obtain ⟨a, ha, rfl⟩ := ha2
      have hacc_id : acc.id = t.accountId := by simpa using List.find?_some hfindA
      by_cases h : a.id = acc.id
      · have haacc : a = acc := eq_found_account _ _ _ _ hndA hfindA ha (h.trans hacc_id)
        subst haacc
        rw [if_pos (by simpa using h)]
        have hbase := hinv a ha
        rw [hsum a.id] at hbase
        rw [if_pos (by simpa using hacc_id.symm : ((t.accountId == a.id) = true))] at hbase
        rw [hbase]
        ring
      · rw [if_neg (by simpa using h)]
        have hbase := hinv a ha
        rw [hsum a.id] at hbase
        have hne : ¬(t.accountId = a.id) := fun he => h (by rw [← hacc_id] at he; exact he.symm)
        simp only [beq_iff_eq, hne, if_false] at hbase
        rw [add_zero] at hbase
        exact hbase

theorem applyPatch_eq_self {t : Txn} {p : TxnPatch}
    (hfalse : (amountChanged p t || categoryChanged p t) = false)
    (hp : p.accountId = none) : applyPatch t p = t := by
  have h1 : amountChanged p t = false := by
    cases hx : amountChanged p t
    · rfl
    · rw [hx] at hfalse; simp at hfalse
  have h2 : categoryChanged p t = false := by
    cases hx : categoryChanged p t
    · rfl
    · rw [hx] at hfalse; simp at hfalse
  simp only [applyPatch, amountChanged_false h1, categoryChanged_false h2, hp,
    Option.getD_none]

theorem updateTransaction_inv (opening : Nat → ℚ) (st : State) (i : Nat) (p : TxnPatch)
    (hp : p.accountId = none)
    (hndA : (st.accounts.map Account.id).Nodup)
    (hndT : (st.transactions.map Txn.id).Nodup)
    (hinv : Inv opening st) :
    Inv opening (updateTransaction st i p).2 := by
  cases hfindT : st.transactions.find? (fun t => t.id == i) with
  | none => simpa only [updateTransaction, hfindT] using hinv
  | some t =>
    have ht_mem : t ∈ st.transactions := List.mem_of_find?_eq_some hfindT
    have ht_id : t.id = i := by simpa using List.find?_some hfindT
    subst ht_id
    have hsum := fun aid =>
      accSum_replace st.categories st.transactions t (applyPatch t p) aid hndT ht_mem
    have ht2acc : (applyPatch t p).accountId = t.accountId := by
      simp [applyPatch, hp]
    cases hcond : (amountChanged p t || categoryChanged p t) with
    | false =>
      have ht2 : applyPatch t p = t := applyPatch_eq_self hcond hp
      simp only [updateTransaction, hfindT, hcond, Bool.false_eq_true, if_false]
      intro a ha
      rw [hsum a.id, ht2]
      have hbase := hinv a ha
      rw [hbase]
      ring
    | true =>
      cases hfindA : st.accounts.find? (fun a => a.id == t.accountId) with
      | none =>
        simp only [updateTransaction, hfindT, hcond, if_true, hfindA]
        intro a ha
        have hne : ¬(t.accountId = a.id) := by
          intro he
          have := List.find?_eq_none.mp hfindA a ha
          simp [he] at this
        rw [hsum a.id]
        simp only [ht2acc, beq_iff_eq, hne, if_false]
        have hbase := hinv a ha
        rw [hbase]
        ring
      | some acc =>
        simp only [updateTransaction, hfindT, hcond, if_true, hfindA]
        intro a2 ha2
        simp only [updateAccountBalance, List.mem_map] at ha2
        obtain ⟨a, ha, rfl⟩ := ha2
        have hacc_id : acc.id = t.accountId := by simpa using List.find?_some hfindA
        by_cases h : a.id = acc.id
        · have haacc : a = acc := eq_found_account _ _ _ _ hndA hfindA ha (h.trans hacc_id)
          subst haacc
          rw [if_pos (by simpa using h)]
          rw [hsum a.id]
          simp only [ht2acc]
          rw [if_pos (by simpa using hacc_id.symm : ((t.accountId == a.id) = true))]
          rw [if_pos (by simpa using hacc_id.symm : ((t.accountId == a.id) = true))]
          have hbase := hinv a ha
          rw [hbase]
          have hdelta : deltaOf st.categories (p.categoryId.getD t.categoryId)
              (p.amount.getD t.amount) = signedDeltaC st.categories (applyPatch t p) := rfl
          rw [hdelta]
          ring
        · rw [if_neg (by simpa using h)]
          rw [hsum a.id]
          have hne : ¬(t.accountId = a.id) := fun he => h (by rw [← hacc_id] at he; exact he.symm)
          simp only [ht2acc, beq_iff_eq, hne, if_false]
          have hbase := hinv a ha
          rw [hbase]
          ring

/-! ### Well-formedness is preserved by each engine operation -/

theorem map_id_replaceTxn (txns : List Txn) (i : Nat) (t2 : Txn) (hid : t2.id = i) :
    (txns.map (fun u => if u.id == i then t2 else u)).map Txn.id = txns.map Txn.id := by
  rw [List.map_map]
  apply List.map_congr_left
  intro u _
  by_cases h : u.id = i
  · simp [h, hid]
  · simp [h]

theorem WF_createTransaction (st : State) (ins : InsertTxn) (h : WF st) :
    WF (createTransaction st ins).2 := by
  obtain ⟨hA, hT, hfresh⟩ := h
  have hTnew : ((st.transactions ++ [newTxnOf ins st.nextTxnId]).map Txn.id).Nodup := by
    rw [List.map_append]
    rw [List.nodup_append]
    refine ⟨hT, by simp [newTxnOf], ?_⟩
    intro x hx
    simp only [List.mem_map] at hx
    obtain ⟨u, hu, rfl⟩ := hx
    simp only [List.map_cons, List.map_nil, newTxnOf, List.mem_singleton]
    exact fun he => absurd he (Nat.ne_of_lt (hfresh u hu))
  have hfreshnew : ∀ t ∈ st.transactions ++ [newTxnOf ins st.nextTxnId],
      t.id < st.nextTxnId + 1 := by
    intro u hu
    rcases List.mem_append.mp hu with hu | hu
    · exact Nat.lt_succ_of_lt (hfresh u hu)
    · simp only [List.mem_singleton] at hu
      subst hu
      simp [newTxnOf]
  cases hfind : st.accounts.find? (fun a => a.id == ins.accountId) with
  | none =>
    simp only [createTransaction, hfind]
    exact ⟨hA, hTnew, hfreshnew⟩
  | some acc =>
    simp only [createTransaction, hfind]
    exact ⟨by rw [map_id_updateAccountBalance]; exact hA, hTnew, hfreshnew⟩

theorem WF_updateTransaction (st : State) (i : Nat) (p : TxnPatch) (h : WF st) :
    WF (updateTransaction st i p).2 := by
  obtain ⟨hA, hT, hfresh⟩ := h
  cases hfindT : st.transactions.find? (fun t => t.id == i) with
  | none => exact ⟨by simpa only [updateTransaction, hfindT] using hA,
      by simpa only [updateTransaction, hfindT] using hT,
      by simpa only [updateTransaction, hfindT] using hfresh⟩
  | some t =>
    have ht_id : t.id = i := by simpa using List.find?_some hfindT
    have hid2 : (applyPatch t p).id = i := by rw [applyPatch_id]; exact ht_id
    have hTnew : ((st.transactions.map
        (fun u => if u.id == i then applyPatch t p else u)).map Txn.id).Nodup := by
      rw [map_id_replaceTxn _ _ _ hid2]
      exact hT
    have hfreshnew : ∀ u ∈ st.transactions.map
        (fun u => if u.id == i then applyPatch t p else u), u.id < st.nextTxnId := by
      intro u2 hu2
      simp only [List.mem_map] at hu2
      obtain ⟨u, hu, rfl⟩ := hu2
      by_cases hc : u.id = i
      · rw [if_pos (by simpa using hc)]
        rw [hid2, ← hc]
        exact hfresh u hu
      · rw [if_neg (by simpa using hc)]
        exact hfresh u hu
    cases hcond : (amountChanged p t || categoryChanged p t) with
    | false =>
      simp only [updateTransaction, hfindT, hcond, Bool.false_eq_true, if_false]
      exact ⟨hA, hTnew, hfreshnew⟩
    | true =>
      cases hfindA : st.accounts.find? (fun a => a.id == t.accountId) with
      | none =>
        simp only [updateTransaction, hfindT, hcond, if_true, hfindA]
        exact ⟨hA, hTnew, hfreshnew⟩
      | some acc =>
        simp only [updateTransaction, hfindT, hcond, if_true, hfindA]
        exact ⟨by rw [map_id_updateAccountBalance]; exact hA, hTnew, hfreshnew⟩

theorem WF_deleteTransaction (st : State) (i : Nat) (h : WF st) :
    WF (deleteTransaction st i).2 := by
  obtain ⟨hA, hT, hfresh⟩ := h
  have hTnew : ((st.transactions.filter (fun u => u.id != i)).map Txn.id).Nodup :=
    List.Nodup.sublist (List.Sublist.map Txn.id (List.filter_sublist _)) hT
  have hfreshnew : ∀ u ∈ st.transactions.filter (fun u => u.id != i),
      u.id < st.nextTxnId := fun u hu => hfresh u (List.mem_of_mem_filter hu)
  cases hfindT : st.transactions.find? (fun t => t.id == i) with
  | none => exact ⟨by simpa only [deleteTransaction, hfindT] using hA,
      by simpa only [deleteTransaction, hfindT] using hT,
      by simpa only [deleteTransaction, hfindT] using hfresh⟩
  | some t =>
    cases hfindA : st.accounts.find? (fun a => a.id == t.accountId) with
    | none =>
      simp only [deleteTransaction, hfindT, hfindA]
      exact ⟨hA, hTnew, hfreshnew⟩
    | some acc =>
      simp only [deleteTransaction, hfindT, hfindA]
      exact ⟨by rw [map_id_updateAccountBalance]; exact hA, hTnew, hfreshnew⟩

theorem WF_applyOp (st : State) (op : Op) (h : WF st) : WF (applyOp st op) := by
  cases op with
  | create ins => exact WF_createTransaction st ins h
  | update i p => exact WF_updateTransaction st i p h
  | delete i => exact WF_deleteTransaction st i h

theorem applyOp_inv (opening : Nat → ℚ) (st : State) (op : Op)
    (hwf : WF st) (hinv : Inv opening st) (hno : noReassign op) :
    Inv opening (applyOp st op) := by
  cases op with
  | create ins => exact createTransaction_inv opening st ins hwf.1 hinv
  | update i p => exact updateTransaction_inv opening st i p hno hwf.1 hwf.2.1 hinv
  | delete i => exact deleteTransaction_inv opening st i hwf.1 hwf.2.1 hinv

theorem applyOps_inv (opening : Nat → ℚ) (ops : List Op) (st : State)
    (hwf : WF st) (hinv : Inv opening st) (hno : ∀ op ∈ ops, noReassign op) :
    Inv opening (applyOps st ops) := by
  induction ops generalizing st with
  | nil => exact hinv
  | cons op ops ih =>
    exact ih (applyOp st op) (WF_applyOp st op hwf)
      (applyOp_inv opening st op hwf hinv (hno op (List.mem_cons_self op ops)))
      (fun o ho => hno o (List.mem_cons_of_mem op ho))

/-! ### Claim C1: the fold invariant -/

/-- C1, counterexample: the fold invariant does not survive arbitrary
`updateTransaction` calls.  Starting from two accounts with balance `0`
and no transactions (a well-formed store satisfying the invariant),
creating an uncategorized transaction of amount `5` on account `1` and
then patching only its `accountId` to `2` leaves account `1` at balance
`-5` while no stored transaction is posted to it any more, so the
invariant fails. -/
theorem fold_invariant_violated_by_reassignment :
    WF ⟨[⟨1, 1, 0⟩, ⟨2, 1, 0⟩], [], [], 1⟩ ∧
    Inv (fun _ => 0) ⟨[⟨1, 1, 0⟩, ⟨2, 1, 0⟩], [], [], 1⟩ ∧
    ¬ Inv (fun _ => 0) (applyOps ⟨[⟨1, 1, 0⟩, ⟨2, 1, 0⟩], [], [], 1⟩
      [Op.create ⟨1, 1, none, 5⟩, Op.update 1 { accountId := some 2 }]) := by
  refine ⟨by decide, ?_, ?_⟩
  · simp [Inv, accSum]
  · have hstep : applyOps ⟨[⟨1, 1, 0⟩, ⟨2, 1, 0⟩], [], [], 1⟩
        [Op.create ⟨1, 1, none, 5⟩, Op.update 1 { accountId := some 2 }]
        = ⟨[⟨1, 1, -5⟩, ⟨2, 1, 0⟩], [], [⟨1, 1, 2, none, 5⟩], 2⟩ := by
      simp [applyOps, applyOp, createTransaction, updateTransaction, newTxnOf,
        updateAccountBalance, amountChanged, categoryChanged, applyPatch, deltaOf,
        getCategoryC, isIncomeC]
    rw [hstep]
    intro h
    have h1 := h ⟨1, 1, -5⟩ (by simp)
    simp [accSum, signedDeltaC] at h1

/-- C1, amended: after any sequence of `createTransaction`,
`updateTransaction` and `deleteTransaction` operations in which no
update patch carries an `accountId` field, every stored
`currentBalance` still equals the account's opening balance plus the
sum of `signedDelta(t)` over the stored (non-deleted) transactions `t`
with `t.accountId` equal to the account's id. -/
theorem fold_invariant_preserved_without_reassignment
    (opening : Nat → ℚ) (st : State) (ops : List Op)
    (hwf : WF st) (hinv : Inv opening st)
    (hno : ∀ op ∈ ops, noReassign op) :
    Inv opening (applyOps st ops) :=
  applyOps_inv opening ops st hwf hinv hno

/-- Witness for the amended C1 at a concrete store and operation
sequence: one account, an expense creation followed by an amount
update and a deletion. -/
theorem fold_invariant_preserved_without_reassignment_witness :
    WF ⟨[⟨1, 1, 0⟩], [⟨7, "income"⟩], [], 1⟩ ∧
    Inv (fun _ => 0) ⟨[⟨1, 1, 0⟩], [⟨7, "income"⟩], [], 1⟩ ∧
    (∀ op ∈ [Op.create ⟨1, 1, some 7, 5⟩, Op.update 1 { amount := some 3 }, Op.delete 1],
      noReassign op) ∧
    Inv (fun _ => 0) (applyOps ⟨[⟨1, 1, 0⟩], [⟨7, "income"⟩], [], 1⟩
      [Op.create ⟨1, 1, some 7, 5⟩, Op.update 1 { amount := some 3 }, Op.delete 1]) :=
  ⟨by decide, by simp [Inv, accSum], by decide,
    fold_invariant_preserved_without_reassignment (fun _ => 0) _ _
      (by decide) (by simp [Inv, accSum]) (by decide)⟩

/-! ### Claim C2: createTransaction postcondition -/

theorem deltaOf_eq_spec (cats : List Category) (cid : Option Nat) (amt : ℚ) :
    deltaOf cats cid amt
      = match getCategoryC cats cid with
        | some c => if c.type = "income" then amt else -amt
        | none => -amt := by
  unfold deltaOf isIncomeC
  cases getCategoryC cats cid with
  | none => rfl
  | some c => by_cases h : c.type = "income" <;> simp [h]

/-- C2 (confirmed): when the target account exists, `createTransaction`
changes its `currentBalance` by exactly `+amount` if the resolved
category has type `income`, and by exactly `-amount` if the category
resolves to any other type or the category id is null or unresolvable;
the new transaction is appended to the store exactly once. -/
theorem createTransaction_balance_postcondition
    (st : State) (ins : InsertTxn) (acc : Account)
    (hacc : getAccountS st ins.accountId = some acc) :
    getAccountS (createTransaction st ins).2 ins.accountId
        = some { acc with currentBalance := acc.currentBalance +
            (match getCategoryC st.categories ins.categoryId with
             | some c => if c.type = "income" then ins.amount else -ins.amount
             | none => -ins.amount) } ∧
    (createTransaction st ins).2.transactions
        = st.transactions ++ [newTxnOf ins st.nextTxnId] := by
  unfold getAccountS at hacc
  have hacc_id : acc.id = ins.accountId := by simpa using List.find?_some hacc
  constructor
  · simp only [createTransaction, hacc, getAccountS]
    rw [hacc_id, find?_updateAccountBalance, hacc, ← deltaOf_eq_spec]
    simp [hacc_id]
  · simp only [createTransaction, hacc]

/-- Witness for C2: an income-typed creation of amount `5` against an
account holding `100` moves it to `105`. -/
theorem createTransaction_balance_postcondition_witness :
    getAccountS ⟨[⟨1, 1, 100⟩], [⟨7, "income"⟩], [], 1⟩ 1 = some ⟨1, 1, 100⟩ ∧
    (getAccountS (createTransaction ⟨[⟨1, 1, 100⟩], [⟨7, "income"⟩], [], 1⟩
          ⟨1, 1, some 7, 5⟩).2 1
        = some { id := 1, userId := 1, currentBalance := (100 : ℚ) +
            (match getCategoryC [⟨7, "income"⟩] (some 7) with
             | some c => if c.type = "income" then (5 : ℚ) else -5
             | none => -5) } ∧
      (createTransaction ⟨[⟨1, 1, 100⟩], [⟨7, "income"⟩], [], 1⟩ ⟨1, 1, some 7, 5⟩).2.transactions
        = [] ++ [newTxnOf ⟨1, 1, some 7, 5⟩ 1]) :=
  ⟨by simp [getAccountS],
    createTransaction_balance_postcondition ⟨[⟨1, 1, 100⟩], [⟨7, "income"⟩], [], 1⟩
      ⟨1, 1, some 7, 5⟩ ⟨1, 1, 100⟩ (by simp [getAccountS])⟩

/-! ### Claim C3: create then delete restores the store -/

@[simp] theorem newTxnOf_id (ins : InsertTxn) (i : Nat) : (newTxnOf ins i).id = i := rfl

@[simp] theorem newTxnOf_accountId (ins : InsertTxn) (i : Nat) :
    (newTxnOf ins i).accountId = ins.accountId := rfl

@[simp] theorem newTxnOf_categoryId (ins : InsertTxn) (i : Nat) :
    (newTxnOf ins i).categoryId = ins.categoryId := rfl

@[simp] theorem newTxnOf_amount (ins : InsertTxn) (i : Nat) :
    (newTxnOf ins i).amount = ins.amount := rfl

/-- C3 (confirmed): on a well-formed store, `createTransaction`
immediately followed by `deleteTransaction` of the created transaction
returns `true` and restores both the account list (hence every
`currentBalance`, exactly) and the transaction list to their pre-create
values. -/
theorem create_delete_roundtrip (st : State) (ins : InsertTxn) (hwf : WF st) :
    (deleteTransaction (createTransaction st ins).2 (createTransaction st ins).1.id).1 = true ∧
    (deleteTransaction (createTransaction st ins).2
        (createTransaction st ins).1.id).2.accounts = st.accounts ∧
    (deleteTransaction (createTransaction st ins).2
        (createTransaction st ins).1.id).2.transactions = st.transactions := by
  obtain ⟨hndA, hndT, hfresh⟩ := hwf
  have hfind_none : st.transactions.find? (fun t => t.id == st.nextTxnId) = none :=
    List.find?_eq_none.mpr (fun t ht => by simpa using Nat.ne_of_lt (hfresh t ht))
  have hfindT1 : (st.transactions ++ [newTxnOf ins st.nextTxnId]).find?
      (fun t => t.id == st.nextTxnId) = some (newTxnOf ins st.nextTxnId) := by
    rw [List.find?_append, hfind_none, Option.none_or]
    exact List.find?_cons_of_pos _ (by simp)
  have hfilter : (st.transactions ++ [newTxnOf ins st.nextTxnId]).filter
      (fun u => u.id != st.nextTxnId) = st.transactions := by
    rw [List.filter_append]
    have h1 : st.transactions.filter (fun u => u.id != st.nextTxnId) = st.transactions :=
      List.filter_eq_self.mpr (fun t ht => by simpa using Nat.ne_of_lt (hfresh t ht))
    have h2 : [newTxnOf ins st.nextTxnId].filter (fun u => u.id != st.nextTxnId) = [] := by
      simp
    rw [h1, h2, List.append_nil]
  cases hfind : st.accounts.find? (fun a => a.id == ins.accountId) with
  | none =>
    simp only [createTransaction, hfind, deleteTransaction, newTxnOf_id, hfindT1,
      newTxnOf_accountId, hfilter]
    exact ⟨trivial, trivial, trivial⟩
  | some acc =>
    have hacc_id : acc.id = ins.accountId := by simpa using List.find?_some hfind
    have hfindA2 : (updateAccountBalance st.accounts ins.accountId
        (acc.currentBalance + deltaOf st.categories ins.categoryId ins.amount)).find?
        (fun a => a.id == ins.accountId)
        = some { acc with currentBalance :=
            acc.currentBalance + deltaOf st.categories ins.categoryId ins.amount } := by
      rw [find?_updateAccountBalance, hfind]
      rfl
    simp only [createTransaction, hfind, deleteTransaction, newTxnOf_id, hfindT1,
      newTxnOf_accountId]
    rw [hacc_id]
    simp only [hfindA2, signedDeltaC, newTxnOf_categoryId, newTxnOf_amount, hacc_id, hfilter]
    refine ⟨trivial, ?_, trivial⟩
    rw [updateAccountBalance_twice]
    apply updateAccountBalance_eq_self
    intro a ha hid
    have haacc : a = acc :=
      eq_found_account st.accounts ins.accountId acc a hndA hfind ha (by rw [hid])
    subst haacc
    ring

/-- Witness for C3: creating an uncategorized transaction of amount `5`
against a singleton store and deleting it restores the store. -/
theorem create_delete_roundtrip_witness :
    WF ⟨[⟨1, 1, 100⟩], [], [], 1⟩ ∧
    ((deleteTransaction (createTransaction ⟨[⟨1, 1, 100⟩], [], [], 1⟩ ⟨1, 1, none, 5⟩).2
        (createTransaction ⟨[⟨1, 1, 100⟩], [], [], 1⟩ ⟨1, 1, none, 5⟩).1.id).1 = true ∧
      (deleteTransaction (createTransaction ⟨[⟨1, 1, 100⟩], [], [], 1⟩ ⟨1, 1, none, 5⟩).2
          (createTransaction ⟨[⟨1, 1, 100⟩], [], [], 1⟩ ⟨1, 1, none, 5⟩).1.id).2.accounts
        = [⟨1, 1, 100⟩] ∧
      (deleteTransaction (createTransaction ⟨[⟨1, 1, 100⟩], [], [], 1⟩ ⟨1, 1, none, 5⟩).2
          (createTransaction ⟨[⟨1, 1, 100⟩], [], [], 1⟩ ⟨1, 1, none, 5⟩).1.id).2.transactions
        = []) :=
  ⟨by decide, create_delete_roundtrip ⟨[⟨1, 1, 100⟩], [], [], 1⟩ ⟨1, 1, none, 5⟩ (by decide)⟩

/-! ### Claim C4: no-op patches leave every balance unchanged -/

/-- C4 (confirmed): updating an existing transaction with a patch whose
`amount` and `categoryId` are absent or identical to the current values
leaves the whole account list — in particular the owning account's
`currentBalance` — unchanged. -/
theorem updateTransaction_noop_patch_balances
    (st : State) (i : Nat) (p : TxnPatch) (t : Txn)
    (ht : getTransactionS st i = some t)
    (hamt : p.amount = none ∨ p.amount = some t.amount)
    (hcat : p.categoryId = none ∨ p.categoryId = some t.categoryId) :
    (updateTransaction st i p).2.accounts = st.accounts := by
  unfold getTransactionS at ht
  have h1 : amountChanged p t = false := by
    rcases hamt with h | h <;> simp [amountChanged, h]
  have h2 : categoryChanged p t = false := by
    rcases hcat with h | h <;> simp [categoryChanged, h]
  simp only [updateTransaction, ht, h1, h2, Bool.or_self, Bool.false_eq_true, if_false]

/-- Witness for C4: a patch restating amount `5` and the null category
of the stored transaction leaves the account list unchanged. -/
theorem updateTransaction_noop_patch_balances_witness :
    getTransactionS ⟨[⟨1, 1, 95⟩], [], [⟨1, 1, 1, none, 5⟩], 2⟩ 1 = some ⟨1, 1, 1, none, 5⟩ ∧
    (updateTransaction ⟨[⟨1, 1, 95⟩], [], [⟨1, 1, 1, none, 5⟩], 2⟩ 1
        { amount := some 5, categoryId := some none }).2.accounts = [⟨1, 1, 95⟩] :=
  ⟨rfl, updateTransaction_noop_patch_balances ⟨[⟨1, 1, 95⟩], [], [⟨1, 1, 1, none, 5⟩], 2⟩ 1
    { amount := some 5, categoryId := some none } ⟨1, 1, 1, none, 5⟩ rfl
    (Or.inr rfl) (Or.inr rfl)⟩

/-! ### Claim C9: accountId reassignment triggers no reconciliation -/

/-- C9 (confirmed): a patch that rewrites only `accountId` (its amount
and category entries absent or equal to the current values) performs no
balance reconciliation at all — the account list is returned untouched —
while the stored transaction is nevertheless moved to the new account
id. -/
theorem updateTransaction_accountId_patch_unreconciled
    (st : State) (i : Nat) (p : TxnPatch) (t : Txn) (newAid : Nat)
    (ht : getTransactionS st i = some t)
    (hamt : p.amount = none ∨ p.amount = some t.amount)
    (hcat : p.categoryId = none ∨ p.categoryId = some t.categoryId)
    (haid : p.accountId = some newAid) :
    (updateTransaction st i p).2.accounts = st.accounts ∧
    (updateTransaction st i p).1 = some { t with accountId := newAid } := by
  unfold getTransactionS at ht
  have h1 : amountChanged p t = false := by
    rcases hamt with h | h <;> simp [amountChanged, h]
  have h2 : categoryChanged p t = false := by
    rcases hcat with h | h <;> simp [categoryChanged, h]
  constructor
  · simp only [updateTransaction, ht, h1, h2, Bool.or_self, Bool.false_eq_true, if_false]
  · simp only [updateTransaction, ht]
    rw [applyPatch, amountChanged_false h1, categoryChanged_false h2, haid]
    rfl

/-- Witness for C9: moving the only transaction from account `1` to
account `2` leaves both balances untouched. -/
theorem updateTransaction_accountId_patch_unreconciled_witness :
    getTransactionS ⟨[⟨1, 1, 95⟩, ⟨2, 1, 50⟩], [], [⟨1, 1, 1, none, 5⟩], 2⟩ 1
      = some ⟨1, 1, 1, none, 5⟩ ∧
    ((updateTransaction ⟨[⟨1, 1, 95⟩, ⟨2, 1, 50⟩], [], [⟨1, 1, 1, none, 5⟩], 2⟩ 1
        { accountId := some 2 }).2.accounts = [⟨1, 1, 95⟩, ⟨2, 1, 50⟩] ∧
      (updateTransaction ⟨[⟨1, 1, 95⟩, ⟨2, 1, 50⟩], [], [⟨1, 1, 1, none, 5⟩], 2⟩ 1
        { accountId := some 2 }).1 = some ⟨1, 1, 2, none, 5⟩) :=
  ⟨rfl, updateTransaction_accountId_patch_unreconciled
    ⟨[⟨1, 1, 95⟩, ⟨2, 1, 50⟩], [], [⟨1, 1, 1, none, 5⟩], 2⟩ 1
    { accountId := some 2 } ⟨1, 1, 1, none, 5⟩ 2 rfl (Or.inl rfl) (Or.inl rfl) rfl⟩

/-! ### Claim C10: operations on unknown transaction ids are no-ops -/

/-- C10 (confirmed): when no stored transaction carries the requested
id, `deleteTransaction` returns `false` and `updateTransaction` returns
no value, and both return the store — every balance and the whole
transaction set — unchanged. -/
theorem unknown_id_total_noop (st : State) (i : Nat) (p : TxnPatch)
    (h : getTransactionS st i = none) :
    deleteTransaction st i = (false, st) ∧ updateTransaction st i p = (none, st) := by
  unfold getTransactionS at h
  constructor
  · simp only [deleteTransaction, h]
  · simp only [updateTransaction, h]

/-- Witness for C10: id `9` is absent from a one-transaction store. -/
theorem unknown_id_total_noop_witness :
    getTransactionS ⟨[⟨1, 1, 95⟩], [], [⟨1, 1, 1, none, 5⟩], 2⟩ 9 = none ∧
    (deleteTransaction ⟨[⟨1, 1, 95⟩], [], [⟨1, 1, 1, none, 5⟩], 2⟩ 9
        = (false, ⟨[⟨1, 1, 95⟩], [], [⟨1, 1, 1, none, 5⟩], 2⟩) ∧
      updateTransaction ⟨[⟨1, 1, 95⟩], [], [⟨1, 1, 1, none, 5⟩], 2⟩ 9 { amount := some 3 }
        = (none, ⟨[⟨1, 1, 95⟩], [], [⟨1, 1, 1, none, 5⟩], 2⟩)) :=
  ⟨rfl, unknown_id_total_noop ⟨[⟨1, 1, 95⟩], [], [⟨1, 1, 1, none, 5⟩], 2⟩ 9
    { amount := some 3 } rfl⟩

/-! ### Claim C6: account deletion and its transactions -/

/-- C6, counterexample: `MemStorage.deleteAccount` does not cascade.
Deleting account `1` from a store holding one transaction posted to it
removes the account record but leaves that transaction in the store,
so one transaction referencing the deleted account id remains. -/
theorem memStorage_deleteAccount_leaves_orphans :
    (MemStorage.deleteAccount ⟨[⟨1, 1, 0⟩], [], [⟨1, 1, 1, none, 5⟩], 2⟩ 1).2.accounts = [] ∧
    (MemStorage.deleteAccount ⟨[⟨1, 1, 0⟩], [], [⟨1, 1, 1, none, 5⟩], 2⟩ 1).2.transactions
      = [⟨1, 1, 1, none, 5⟩] ∧
    ¬ ((MemStorage.deleteAccount ⟨[⟨1, 1, 0⟩], [], [⟨1, 1, 1, none, 5⟩], 2⟩
        1).2.transactions.filter (fun t => t.accountId == 1) = []) := by
  refine ⟨by simp [MemStorage.deleteAccount], rfl, by simp [MemStorage.deleteAccount]⟩

/-- C6, amended: `DatabaseStorage.deleteAccount` deletes every
transaction referencing the account and then the account itself, so
that afterwards no stored transaction references that account id and
the account is gone; `MemStorage.deleteAccount`, by contrast, removes
only the account record and leaves its transactions in the store. -/
theorem deleteAccount_cascade (st : State) (aid : Nat) :
    (DatabaseStorage.deleteAccount st aid).2.transactions.filter
        (fun t => t.accountId == aid) = [] ∧
    (DatabaseStorage.deleteAccount st aid).2.transactions
        = st.transactions.filter (fun t => t.accountId != aid) ∧
    (DatabaseStorage.deleteAccount st aid).2.accounts.find? (fun a => a.id == aid) = none ∧
    (MemStorage.deleteAccount st aid).2.transactions = st.transactions := by
  refine ⟨?_, rfl, ?_, rfl⟩
  · simp only [DatabaseStorage.deleteAccount]
    rw [List.filter_filter]
    apply List.filter_eq_nil_iff.mpr
    intro t _
    by_cases h : t.accountId = aid <;> simp [h]
  · simp only [DatabaseStorage.deleteAccount]
    apply List.find?_eq_none.mpr
    intro a ha
    have := (List.mem_filter.mp ha).2
    simpa using this

/-! ### Claim C7: request validation before any write -/

theorem parseInsertTransaction_none_of_missing (uid : Nat) (b : RawTxnBody)
    (h : b.accountId = none ∨ b.date = none ∨ b.merchant = none ∨ b.amount = none) :
    parseInsertTransaction uid b = none := by
  cases hA : b.accountId <;> cases hD : b.date <;> cases hM : b.merchant <;>
    cases hAm : b.amount <;> simp_all [parseInsertTransaction]

/-- C7, counterexample: the insert schema carries no positivity check,
so a create request with the non-positive amount `-5` (all required
fields present) is not rejected: the handler reports success, a
transaction is written, and the account balance moves from `100` to
`105` (the negative amount is treated as an expense and subtracted). -/
theorem nonpositive_amount_not_rejected :
    (postTransaction ⟨[⟨1, 1, 100⟩], [], [], 1⟩ 1
        { accountId := some 1, categoryId := none, date := some 0,
          merchant := some "store", amount := some (-5) }).1
      ≠ CreateTxnResult.validationError ∧
    (postTransaction ⟨[⟨1, 1, 100⟩], [], [], 1⟩ 1
        { accountId := some 1, categoryId := none, date := some 0,
          merchant := some "store", amount := some (-5) }).2.transactions
      = [⟨1, 1, 1, none, -5⟩] ∧
    getAccountS (postTransaction ⟨[⟨1, 1, 100⟩], [], [], 1⟩ 1
        { accountId := some 1, categoryId := none, date := some 0,
          merchant := some "store", amount := some (-5) }).2 1 = some ⟨1, 1, 105⟩ := by
  have hstep : postTransaction ⟨[⟨1, 1, 100⟩], [], [], 1⟩ 1
      { accountId := some 1, categoryId := none, date := some 0,
        merchant := some "store", amount := some (-5) }
      = (CreateTxnResult.created ⟨1, 1, 1, none, -5⟩,
          ⟨[⟨1, 1, 105⟩], [], [⟨1, 1, 1, none, -5⟩], 2⟩) := by
    simp [postTransaction, parseInsertTransaction, createTransaction, newTxnOf,
      updateAccountBalance, deltaOf, getCategoryC, isIncomeC]
    norm_num
  rw [hstep]
  exact ⟨by simp, rfl, by simp [getAccountS]⟩

/-- C7, amended: a create-transaction request missing any
schema-required field (account id, date, merchant or amount) is
rejected by validation before any write: the handler returns a
validation error and the store — every balance and the whole
transaction set — is returned unchanged.  Non-positive amounts are not
rejected: the generated insert schema contains no sign refinement. -/
theorem postTransaction_missing_field_rejected
    (st : State) (uid : Nat) (b : RawTxnBody)
    (h : b.accountId = none ∨ b.date = none ∨ b.merchant = none ∨ b.amount = none) :
    postTransaction st uid b = (CreateTxnResult.validationError, st) := by
  simp only [postTransaction, parseInsertTransaction_none_of_missing uid b h]

/-- Witness for the amended C7: a request with no amount field is
rejected and the store is untouched. -/
theorem postTransaction_missing_field_rejected_witness :
    ({ accountId := some 1, categoryId := none, date := some 0,
        merchant := some "store", amount := none } : RawTxnBody).amount = none ∧
    postTransaction ⟨[⟨1, 1, 100⟩], [], [], 1⟩ 1
        { accountId := some 1, categoryId := none, date := some 0,
          merchant := some "store", amount := none }
      = (CreateTxnResult.validationError, ⟨[⟨1, 1, 100⟩], [], [], 1⟩) :=
  ⟨rfl, postTransaction_missing_field_rejected ⟨[⟨1, 1, 100⟩], [], [], 1⟩ 1
    { accountId := some 1, categoryId := none, date := some 0,
      merchant := some "store", amount := none }
    (Or.inr (Or.inr (Or.inr rfl)))⟩

/-! ### Claim C8: cross-user creation is rejected without side effect -/

/-- C8 (confirmed): when the parsed create request targets an existing
account that is not owned by the requesting user, the handler answers
with the authorization failure (HTTP 403) and returns the store
unchanged: no transaction is created and no balance moves. -/
theorem postTransaction_cross_user_rejected
    (st : State) (uid : Nat) (b : RawTxnBody) (data : InsertTxn) (acc : Account)
    (hp : parseInsertTransaction uid b = some data)
    (ha : getAccountS st data.accountId = some acc)
    (hu : acc.userId ≠ uid) :
    postTransaction st uid b = (CreateTxnResult.forbidden, st) := by
  unfold getAccountS at ha
  simp only [postTransaction, hp, ha]
  rw [if_neg (by simpa using hu)]

/-- Witness for C8: user `1` posting to an account owned by user `2`
is refused and the store is unchanged. -/
theorem postTransaction_cross_user_rejected_witness :
    parseInsertTransaction 1
        { accountId := some 1, categoryId := none, date := some 0,
          merchant := some "store", amount := some 5 }
      = some ⟨1, 1, none, 5⟩ ∧
    getAccountS ⟨[⟨1, 2, 100⟩], [], [], 1⟩ 1 = some ⟨1, 2, 100⟩ ∧
    (2 : Nat) ≠ 1 ∧
    postTransaction ⟨[⟨1, 2, 100⟩], [], [], 1⟩ 1
        { accountId := some 1, categoryId := none, date := some 0,
          merchant := some "store", amount := some 5 }
      = (CreateTxnResult.forbidden, ⟨[⟨1, 2, 100⟩], [], [], 1⟩) :=
  ⟨rfl, rfl, by decide,
    postTransaction_cross_user_rejected ⟨[⟨1, 2, 100⟩], [], [], 1⟩ 1
      { accountId := some 1, categoryId := none, date := some 0,
        merchant := some "store", amount := some 5 }
      ⟨1, 1, none, 5⟩ ⟨1, 2, 100⟩ rfl rfl (by decide)⟩

/-! ### Claim C5: category flips move the balance by twice the amount -/

/-- C5 (confirmed): updating an existing transaction so that only its
category changes, from a resolved expense-type category to a resolved
income-type one, moves the owning account's `currentBalance` by exactly
`+2 × amount`; the symmetric income-to-expense flip moves it by exactly
`-2 × amount`. -/
theorem updateTransaction_category_flip
    (st : State) (i : Nat) (p : TxnPatch) (t : Txn) (acc : Account)
    (cOld cNew : Category) (newCid : Nat)
    (ht : getTransactionS st i = some t)
    (hOld : getCategoryC st.categories t.categoryId = some cOld)
    (hpcat : p.categoryId = some (some newCid))
    (hNew : getCategoryC st.categories (some newCid) = some cNew)
    (hpamt : p.amount = none)
    (hacc : getAccountS st t.accountId = some acc)
    (hflip : (cOld.type = "expense" ∧ cNew.type = "income") ∨
             (cOld.type = "income" ∧ cNew.type = "expense")) :
    getAccountS (updateTransaction st i p).2 t.accountId
      = some { acc with currentBalance := acc.currentBalance +
          (if cNew.type = "income" then 2 * t.amount else -(2 * t.amount)) } := by
  unfold getTransactionS at ht
  unfold getAccountS at hacc
  have hne : t.categoryId ≠ some newCid := by
    intro he
    rw [he, hNew] at hOld
    injection hOld with hcc
    rcases hflip with ⟨h1, h2⟩ | ⟨h1, h2⟩ <;> rw [hcc, h1] at h2 <;>
      exact absurd h2 (by simp)
  have hcat : categoryChanged p t = true := by
    unfold categoryChanged
    rw [hpcat]
    simp only [decide_eq_true_eq]
    exact fun he => hne he.symm
  have hcond : (amountChanged p t || categoryChanged p t) = true := by
    rw [hcat, Bool.or_true]
  have hacc_id : acc.id = t.accountId := by simpa using List.find?_some hacc
  simp only [updateTransaction, ht, hcond, if_true, hacc]
  unfold getAccountS
  rw [hacc_id, find?_updateAccountBalance, hacc]
  simp only [hpcat, hpamt, Option.getD_some, Option.getD_none, Option.map_some,
    signedDeltaC, deltaOf, isIncomeC, hOld, hNew, Option.some.injEq, Account.mk.injEq]
  rcases hflip with ⟨h1, h2⟩ | ⟨h1, h2⟩ <;> simp [h1, h2, hacc_id] <;> ring_nf

/-- Witness for C5: flipping the only transaction (amount `50`) of an
account holding `100` from the expense category `3` to the income
category `7` lands the balance at `100 + 2 × 50`. -/
theorem updateTransaction_category_flip_witness :
    getTransactionS ⟨[⟨1, 1, 100⟩], [⟨3, "expense"⟩, ⟨7, "income"⟩],
        [⟨1, 1, 1, some 3, 50⟩], 2⟩ 1 = some ⟨1, 1, 1, some 3, 50⟩ ∧
    getCategoryC [⟨3, "expense"⟩, ⟨7, "income"⟩] (some 3) = some ⟨3, "expense"⟩ ∧
    getCategoryC [⟨3, "expense"⟩, ⟨7, "income"⟩] (some 7) = some ⟨7, "income"⟩ ∧
    getAccountS (updateTransaction ⟨[⟨1, 1, 100⟩], [⟨3, "expense"⟩, ⟨7, "income"⟩],
        [⟨1, 1, 1, some 3, 50⟩], 2⟩ 1 { categoryId := some (some 7) }).2 1
      = some { id := 1, userId := 1, currentBalance := (100 : ℚ) +
          (if ("income" : String) = "income" then 2 * 50 else -(2 * 50)) } :=
  ⟨rfl, rfl, rfl,
    updateTransaction_category_flip
      ⟨[⟨1, 1, 100⟩], [⟨3, "expense"⟩, ⟨7, "income"⟩], [⟨1, 1, 1, some 3, 50⟩], 2⟩ 1
      { categoryId := some (some 7) } ⟨1, 1, 1, some 3, 50⟩ ⟨1, 1, 100⟩
      ⟨3, "expense"⟩ ⟨7, "income"⟩ 7 rfl rfl rfl rfl rfl rfl (Or.inl ⟨rfl, rfl⟩)⟩
